import Mathlib

/-!
Verification of the delivery-dashboard core (src/dashboard.py): the
remarks-time extractor `extract_time`, the time resolution performed in
`load_data` (strict `%H:%M` parse with `23:59` fallback, combined with the
requested date), the urgency classifier `get_order_icon`, and the window
filters `pending` / `today_df` / `tomorrow_df` / `week_df` / `near_df`.

Modelling conventions:
* Timestamps (`datetime` values) are integers counting minutes; a calendar
  date is the floor-division of a timestamp by 1440 (minutes per day).
  `datetime.combine(date, time)` is `date * 1440 + timeOfDay`.
* Strings are Lean `String`s; a possibly-missing (`NaN`) remarks field is
  `Option String`.
* The two regex searches in `extract_time` are modelled as left-to-right
  scans with Python's backtracking order (greedy `\d{1,2}` tries two digits
  before one); `\d` is modelled as the ASCII digits and `\s` as the ASCII
  whitespace class, which is what every input under study exercises.
* `pandas.to_datetime(_, format="%H:%M", errors="coerce")` is modelled after
  CPython strptime: `%H` matches `2[0-3]|[0-1]\d|\d`, `%M` matches
  `[0-5]\d|\d`, the match is anchored at the start, and any unconverted
  trailing data makes the whole parse fail (coerced to the 23:59 sentinel).
-/

/-- ASCII decimal digit, the `\d` class as exercised here. -/
def isD (c : Char) : Prop := 48 ≤ c.toNat ∧ c.toNat ≤ 57

instance (c : Char) : Decidable (isD c) :=
  inferInstanceAs (Decidable (_ ∧ _))

/-- The separator class `[:.]` of the time regex in `extract_time`. -/
def isSep (c : Char) : Prop := c = ':' ∨ c = '.'

instance (c : Char) : Decidable (isSep c) :=
  inferInstanceAs (Decidable (_ ∨ _))

/-- ASCII whitespace, the `\s` class as exercised here. -/
def isSpace (c : Char) : Prop :=
  c = ' ' ∨ c = '\t' ∨ c = '\n' ∨ c = '\r' ∨ c = '\x0b' ∨ c = '\x0c'

instance (c : Char) : Decidable (isSpace c) :=
  inferInstanceAs (Decidable (_ ∨ _))

/-- Numeric value of a digit character. -/
def dv (c : Char) : Nat := c.toNat - 48

/-- Value of a digit string (most significant first), as Python `int`. -/
def digitsVal (cs : List Char) : Nat :=
  cs.foldl (fun acc c => 10 * acc + dv c) 0

/-- Python `f"{n:02d}"`: decimal representation left-padded to width 2. -/
def pad2 (n : Nat) : String :=
  if n < 10 then "0" ++ toString n else toString n

/-- Attempt of the regex `(\d{1,2})[:.](\d{2})` anchored at the head of the
list, with the greedy two-digit hour tried before the one-digit hour, as in
`re` backtracking.  Returns (hour digits, minute digit 1, minute digit 2). -/
def matchTimeAt : List Char → Option (List Char × Char × Char)
  | a :: b :: c :: d :: e :: _ =>
    if isD a ∧ isD b ∧ isSep c ∧ isD d ∧ isD e then some ([a, b], d, e)
    else if isD a ∧ isSep b ∧ isD c ∧ isD d then some ([a], c, d)
    else none
  | [a, b, c, d] =>
    if isD a ∧ isSep b ∧ isD c ∧ isD d then some ([a], c, d)
    else none
  | _ => none

/-- `re.search(r"(\d{1,2})[:.](\d{2})", _)`: leftmost match wins. -/
def searchTime : List Char → Option (List Char × Char × Char)
  | [] => none
  | c :: rest =>
    match matchTimeAt (c :: rest) with
    | some r => some r
    | none => searchTime rest

/-- Attempt of the regex `บ่าย\s*(\d{1,2})` anchored at the head of the
list: the literal token, any whitespace, then one or two digits (greedy).
Returns the matched digit characters. -/
def matchAfternoonAt : List Char → Option (List Char)
  | 'บ' :: '่' :: 'า' :: 'ย' :: rest =>
    match rest.dropWhile (fun c => decide (isSpace c)) with
    | a :: b :: _ =>
      if isD a ∧ isD b then some [a, b]
      else if isD a then some [a]
      else none
    | [a] => if isD a then some [a] else none
    | [] => none
  | _ => none

/-- `re.search(r"บ่าย\s*(\d{1,2})", _)`: leftmost match wins. -/
def searchAfternoon : List Char → Option (List Char)
  | [] => none
  | c :: rest =>
    match matchAfternoonAt (c :: rest) with
    | some r => some r
    | none => searchAfternoon rest

/-- `extract_time` from `load_data` (src/dashboard.py lines 56-67):
NaN input yields the `"23:59"` sentinel; else the first `\d{1,2}[:.]\d{2}`
match yields zero-padded hour and the two minute digits verbatim; else the
first `บ่าย\s*(\d{1,2})` match for N yields `(N+12):00` zero-padded; else
the sentinel. -/
def extract_time (text : Option String) : String :=
  match text with
  | none => "23:59"
  | some t =>
    match searchTime t.data with
    | some (h, m1, m2) => pad2 (digitsVal h) ++ ":" ++ String.mk [m1, m2]
    | none =>
      match searchAfternoon t.data with
      | some ds => pad2 (digitsVal ds + 12) ++ ":00"
      | none => "23:59"

/-- `%M` of strptime: `[0-5]\d|\d`, first alternative first.  Returns the
minute value and the unconsumed characters. -/
def matchMin : List Char → Option (Nat × List Char)
  | a :: b :: rest =>
    if isD a ∧ a.toNat ≤ 53 ∧ isD b then some (10 * dv a + dv b, rest)
    else if isD a then some (dv a, b :: rest)
    else none
  | [a] => if isD a then some (dv a, []) else none
  | [] => none

/-- The literal `:` of the format followed by `%M`. -/
def matchColonM : List Char → Option (Nat × List Char)
  | ':' :: rest => matchMin rest
  | _ => none

/-- `%H` third alternative `\d` followed by `:%M`. -/
def matchHour1 : List Char → Option (Nat × Nat × List Char)
  | a :: rest =>
    if isD a then
      match matchColonM rest with
      | some (m, r) => some (dv a, m, r)
      | none => none
    else none
  | [] => none

/-- `%H` second alternative `[0-1]\d` followed by `:%M`, falling back to
the third alternative on failure. -/
def matchHour01 (cs : List Char) : Option (Nat × Nat × List Char) :=
  match cs with
  | a :: b :: rest =>
    if (a = '0' ∨ a = '1') ∧ isD b then
      match matchColonM rest with
      | some (m, r) => some (10 * dv a + dv b, m, r)
      | none => matchHour1 cs
    else matchHour1 cs
  | _ => matchHour1 cs

/-- `%H` first alternative `2[0-3]` followed by `:%M`, falling back to the
later alternatives on failure — CPython strptime's regex for `%H:%M`,
matched at the start of the string. -/
def matchHourM (cs : List Char) : Option (Nat × Nat × List Char) :=
  match cs with
  | a :: b :: rest =>
    if a = '2' ∧ isD b ∧ b.toNat ≤ 51 then
      match matchColonM rest with
      | some (m, r) => some (20 + dv b, m, r)
      | none => matchHour01 cs
    else matchHour01 cs
  | _ => matchHour01 cs

/-- `pd.to_datetime(_, format="%H:%M", errors="coerce")` on one string:
the strptime regex must match from the start and consume the whole string,
otherwise the value is coerced to NaT (`none`).  A success is the
time-of-day in minutes. -/
def parseHHMM (s : String) : Option Nat :=
  match matchHourM s.data with
  | some (h, m, []) => some (h * 60 + m)
  | _ => none

/-- The 23:59 sentinel as minutes of day. -/
def sentinelMinutes : Nat := 23 * 60 + 59

/-- Time resolution in `load_data` (src/dashboard.py lines 69-84): parse the
extracted clock string strictly as `%H:%M`, fill a failed parse with the
23:59 sentinel, and `datetime.combine` the requested date with that
time-of-day. -/
def resolve (date : Int) (clock : String) : Int :=
  date * 1440 + (((parseHHMM clock).getD sentinelMinutes : Nat) : Int)

/-- `.date()` of a timestamp in minutes. -/
def dateOf (t : Int) : Int := t / 1440

/-- `ALERT_BEFORE = timedelta(hours=2)` in minutes. -/
def ALERT_BEFORE : Int := 120

/-- The three icons returned by `get_order_icon`. -/
inductive Icon
  | urgent
  | today
  | future
  deriving DecidableEq, Repr

/-- `get_order_icon` (src/dashboard.py lines 91-98). -/
def get_order_icon (delivery_dt now : Int) : Icon :=
  if delivery_dt - now ≤ ALERT_BEFORE then Icon.urgent
  else if dateOf delivery_dt = dateOf now then Icon.today
  else Icon.future

/-- A row after `load_data`: the parsed requested date (a calendar day) and
the combined delivery timestamp (minutes). -/
structure ResolvedOrder where
  requestedDate : Int
  delivery_datetime : Int
  deriving DecidableEq, Repr

/-- The construction invariant of `load_data`: `delivery_datetime` is
`requestedDate` combined with a valid time-of-day. -/
def wellFormed (o : ResolvedOrder) : Prop :=
  o.requestedDate * 1440 ≤ o.delivery_datetime ∧
    o.delivery_datetime < o.requestedDate * 1440 + 1440

instance (o : ResolvedOrder) : Decidable (wellFormed o) :=
  inferInstanceAs (Decidable (_ ∧ _))

/-- Membership in `pending` (line 123): `delivery_datetime >= now`. -/
def pendingMem (o : ResolvedOrder) (now : Int) : Prop :=
  o.delivery_datetime ≥ now

instance (o : ResolvedOrder) (now : Int) : Decidable (pendingMem o now) :=
  inferInstanceAs (Decidable (_ ≥ _))

/-- Membership in `today_df` (line 125). -/
def todayMem (o : ResolvedOrder) (now : Int) : Prop :=
  pendingMem o now ∧ o.requestedDate = dateOf now

instance (o : ResolvedOrder) (now : Int) : Decidable (todayMem o now) :=
  inferInstanceAs (Decidable (_ ∧ _))

/-- Membership in `tomorrow_df` (line 126). -/
def tomorrowMem (o : ResolvedOrder) (now : Int) : Prop :=
  pendingMem o now ∧ o.requestedDate = dateOf now + 1

instance (o : ResolvedOrder) (now : Int) : Decidable (tomorrowMem o now) :=
  inferInstanceAs (Decidable (_ ∧ _))

/-- Membership in `week_df` (lines 127-130). -/
def weekMem (o : ResolvedOrder) (now : Int) : Prop :=
  pendingMem o now ∧ dateOf now + 1 < o.requestedDate ∧
    o.requestedDate ≤ dateOf now + 7

instance (o : ResolvedOrder) (now : Int) : Decidable (weekMem o now) :=
  inferInstanceAs (Decidable (_ ∧ _))

/-- The residual "beyond 7 days / not shown" bucket: pending but past the
seven-day window. -/
def beyondMem (o : ResolvedOrder) (now : Int) : Prop :=
  pendingMem o now ∧ dateOf now + 7 < o.requestedDate

instance (o : ResolvedOrder) (now : Int) : Decidable (beyondMem o now) :=
  inferInstanceAs (Decidable (_ ∧ _))

/-- Membership in `near_df` (line 132): pending and within the two-hour
alert window. -/
def nearMem (o : ResolvedOrder) (now : Int) : Prop :=
  pendingMem o now ∧ o.delivery_datetime - now ≤ ALERT_BEFORE

instance (o : ResolvedOrder) (now : Int) : Decidable (nearMem o now) :=
  inferInstanceAs (Decidable (_ ∧ _))

/-- The output format asserted by the spec's TimeExtractor contract: exactly
two digits, a colon, exactly two digits.  This definition follows the
spec's words, for comparison with `extract_time`'s actual range. -/
def specHHMMFormat (s : String) : Bool :=
  match s.data with
  | [a, b, c, d, e] =>
    decide (isD a) && decide (isD b) && (c = ':') && decide (isD d) &&
      decide (isD e)
  | _ => false

/-- The format `extract_time` actually guarantees: a 2- or 3-digit hour
field, a colon, then exactly two digits. -/
def looseHMFormat (s : String) : Bool :=
  match s.data with
  | [a, b, c, d, e] =>
    decide (isD a) && decide (isD b) && (c = ':') && decide (isD d) &&
      decide (isD e)
  | [a, b, c, d, e, f] =>
    decide (isD a) && decide (isD b) && decide (isD c) && (d = ':') &&
      decide (isD e) && decide (isD f)
  | _ => false

/-! ### Helper lemmas -/

theorem data_append (x y : String) : (x ++ y).data = x.data ++ y.data := rfl

theorem mk_data (l : List Char) : (String.mk l).data = l := rfl

theorem dv_le (c : Char) (h : isD c) : dv c ≤ 9 := by
  unfold isD at h; unfold dv; omega

theorem digitsVal_one (x : Char) : digitsVal [x] = dv x := by
  simp [digitsVal]

theorem digitsVal_two (x y : Char) : digitsVal [x, y] = 10 * dv x + dv y := by
  simp [digitsVal, Nat.mul_add]

/-- The shape of any digit group matched by the `\d{1,2}` hour pattern. -/
def hourShape (h : List Char) : Prop :=
  (∃ x, h = [x] ∧ isD x) ∨ (∃ x y, h = [x, y] ∧ isD x ∧ isD y)

theorem digitsVal_le_of_hourShape (h : List Char) (hs : hourShape h) :
    digitsVal h ≤ 99 := by
  rcases hs with ⟨x, rfl, hx⟩ | ⟨x, y, rfl, hx, hy⟩
  · have := dv_le x hx
    rw [digitsVal_one]; omega
  · have := dv_le x hx
    have := dv_le y hy
    rw [digitsVal_two]; omega

/-- Decidable check: the string is exactly two digit characters. -/
def twoDigitString (s : String) : Bool :=
  match s.data with
  | [p, q] => decide (isD p) && decide (isD q)
  | _ => false

/-- Decidable check: the string is exactly three digit characters. -/
def threeDigitString (s : String) : Bool :=
  match s.data with
  | [p, q, r] => decide (isD p) && decide (isD q) && decide (isD r)
  | _ => false

theorem pad2_two : ∀ n, n < 100 → twoDigitString (pad2 n) = true := by decide

theorem pad2_three : ∀ n, n < 112 → 100 ≤ n → threeDigitString (pad2 n) = true := by
  decide

theorem twoDigitString_spec (s : String) (H : twoDigitString s = true) :
    ∃ p q, s.data = [p, q] ∧ isD p ∧ isD q := by
  unfold twoDigitString at H
  split at H
  · next p q heq =>
    simp only [Bool.and_eq_true, decide_eq_true_eq] at H
    exact ⟨p, q, heq, H.1, H.2⟩
  · exact absurd H (by simp)

theorem threeDigitString_spec (s : String) (H : threeDigitString s = true) :
    ∃ p q r, s.data = [p, q, r] ∧ isD p ∧ isD q ∧ isD r := by
  unfold threeDigitString at H
  split at H
  · next p q r heq =>
    simp only [Bool.and_eq_true, decide_eq_true_eq] at H
    exact ⟨p, q, r, heq, H.1.1, H.1.2, H.2⟩
  · exact absurd H (by simp)

theorem matchTimeAt_shape (cs : List Char) (h : List Char) (a b : Char)
    (H : matchTimeAt cs = some (h, a, b)) :
    hourShape h ∧ isD a ∧ isD b := by
  unfold matchTimeAt at H
  split at H
  · split_ifs at H with h1 h2
    · simp only [Option.some.injEq, Prod.mk.injEq] at H
      obtain ⟨e1, e2, e3⟩ := H
      subst e1; subst e2; subst e3
      exact ⟨Or.inr ⟨_, _, rfl, h1.1, h1.2.1⟩, h1.2.2.2.1, h1.2.2.2.2⟩
    · simp only [Option.some.injEq, Prod.mk.injEq] at H
      obtain ⟨e1, e2, e3⟩ := H
      subst e1; subst e2; subst e3
      exact ⟨Or.inl ⟨_, rfl, h2.1⟩, h2.2.2.1, h2.2.2.2⟩
  · split_ifs at H with h1
    simp only [Option.some.injEq, Prod.mk.injEq] at H
    obtain ⟨e1, e2, e3⟩ := H
    subst e1; subst e2; subst e3
    exact ⟨Or.inl ⟨_, rfl, h1.1⟩, h1.2.2.1, h1.2.2.2⟩
  · exact absurd H (by simp)

theorem searchTime_shape (cs : List Char) (h : List Char) (a b : Char)
    (H : searchTime cs = some (h, a, b)) :
    hourShape h ∧ isD a ∧ isD b := by
  induction cs with
  | nil => exact absurd H (by simp [searchTime])
  | cons c rest ih =>
    rw [searchTime] at H
    cases hm : matchTimeAt (c :: rest) with
    | some r =>
      rw [hm] at H
      injection H with H'
      subst H'
      exact matchTimeAt_shape _ _ _ _ hm
    | none =>
      rw [hm] at H
      exact ih H

theorem matchAfternoonAt_shape (cs : List Char) (ds : List Char)
    (H : matchAfternoonAt cs = some ds) : hourShape ds := by
  unfold matchAfternoonAt at H
  split at H
  · split at H
    · split_ifs at H with h1 h2
      · injection H with H'
        subst H'
        exact Or.inr ⟨_, _, rfl, h1.1, h1.2⟩
      · injection H with H'
        subst H'
        exact Or.inl ⟨_, rfl, h2⟩
    · split_ifs at H with h1
      injection H with H'
      subst H'
      exact Or.inl ⟨_, rfl, h1⟩
    · exact absurd H (by simp)
  · exact absurd H (by simp)

theorem searchAfternoon_shape (cs : List Char) (ds : List Char)
    (H : searchAfternoon cs = some ds) : hourShape ds := by
  induction cs with
  | nil => exact absurd H (by simp [searchAfternoon])
  | cons c rest ih =>
    rw [searchAfternoon] at H
    cases hm : matchAfternoonAt (c :: rest) with
    | some r =>
      rw [hm] at H
      injection H with H'
      subst H'
      exact matchAfternoonAt_shape _ _ hm
    | none =>
      rw [hm] at H
      exact ih H

theorem matchMin_le (cs : List Char) (m : Nat) (r : List Char)
    (H : matchMin cs = some (m, r)) : m ≤ 59 := by
  unfold matchMin at H
  split at H
  · split_ifs at H with h1 h2
    · simp only [Option.some.injEq, Prod.mk.injEq] at H
      obtain ⟨e1, _⟩ := H
      unfold isD at h1
      unfold dv at e1
      omega
    · simp only [Option.some.injEq, Prod.mk.injEq] at H
      obtain ⟨e1, _⟩ := H
      have := dv_le _ h2
      omega
  · split_ifs at H with h1
    simp only [Option.some.injEq, Prod.mk.injEq] at H
    obtain ⟨e1, _⟩ := H
    have := dv_le _ h1
    omega
  · exact absurd H (by simp)

theorem matchColonM_le (cs : List Char) (m : Nat) (r : List Char)
    (H : matchColonM cs = some (m, r)) : m ≤ 59 := by
  unfold matchColonM at H
  split at H
  · exact matchMin_le _ _ _ H
  · exact absurd H (by simp)

theorem matchHour1_le (cs : List Char) (h m : Nat) (r : List Char)
    (H : matchHour1 cs = some (h, m, r)) : h ≤ 9 ∧ m ≤ 59 := by
  unfold matchHour1 at H
  split at H
  · split_ifs at H with h1
    · split at H
      · next m' r' hcm =>
        simp only [Option.some.injEq, Prod.mk.injEq] at H
        obtain ⟨e1, e2, _⟩ := H
        subst e1; subst e2
        exact ⟨dv_le _ h1, matchColonM_le _ _ _ hcm⟩
      · exact absurd H (by simp)
  · exact absurd H (by simp)

theorem matchHour01_le (cs : List Char) (h m : Nat) (r : List Char)
    (H : matchHour01 cs = some (h, m, r)) : h ≤ 23 ∧ m ≤ 59 := by
  unfold matchHour01 at H
  split at H
  · rename_i a b rest
    split_ifs at H with h1
    · split at H
      · next m' r' hcm =>
        simp only [Option.some.injEq, Prod.mk.injEq] at H
        obtain ⟨e1, e2, _⟩ := H
        subst e1; subst e2
        have hb := dv_le _ h1.2
        have ha : dv a ≤ 1 := by
          rcases h1.1 with h' | h'
          · subst h'; decide
          · subst h'; decide
        exact ⟨by omega, matchColonM_le _ _ _ hcm⟩
      · have := matchHour1_le _ _ _ _ H
        omega
    · have := matchHour1_le _ _ _ _ H
      omega
  · have := matchHour1_le _ _ _ _ H
    omega

theorem matchHourM_le (cs : List Char) (h m : Nat) (r : List Char)
    (H : matchHourM cs = some (h, m, r)) : h ≤ 23 ∧ m ≤ 59 := by
  unfold matchHourM at H
  split at H
  · rename_i a b rest
    split_ifs at H with h1
    · split at H
      · next m' r' hcm =>
        simp only [Option.some.injEq, Prod.mk.injEq] at H
        obtain ⟨e1, e2, _⟩ := H
        subst e1; subst e2
        have hb : dv b ≤ 3 := by
          obtain ⟨_, hd, hle⟩ := h1
          unfold isD at hd
          unfold dv
          omega
        exact ⟨by omega, matchColonM_le _ _ _ hcm⟩
      · have := matchHour01_le _ _ _ _ H
        omega
    · have := matchHour01_le _ _ _ _ H
      omega
  · have := matchHour01_le _ _ _ _ H
    omega

theorem parseHHMM_le (s : String) (t : Nat) (H : parseHHMM s = some t) :
    t ≤ 1439 := by
  unfold parseHHMM at H
  split at H
  · next h m hm =>
    injection H with H'
    subst H'
    have := matchHourM_le _ _ _ _ hm
    omega
  · exact absurd H (by simp)

theorem looseHM_of_data5 (s : String) (p q a b : Char)
    (hd : s.data = [p, q, ':', a, b])
    (hp : isD p) (hq : isD q) (ha : isD a) (hb : isD b) :
    looseHMFormat s = true := by
  unfold looseHMFormat
  rw [hd]
  simp [hp, hq, ha, hb]

theorem looseHM_of_data6 (s : String) (p q r a b : Char)
    (hd : s.data = [p, q, r, ':', a, b])
    (hp : isD p) (hq : isD q) (hr : isD r) (ha : isD a) (hb : isD b) :
    looseHMFormat s = true := by
  unfold looseHMFormat
  rw [hd]
  simp [hp, hq, hr, ha, hb]

/-! ### Claims -/

/-- C1: for every delivery timestamp `T` and current time `N`,
`get_order_icon` returns URGENT when `T - N ≤ 2` hours (negative
differences included, regardless of calendar date); otherwise TODAY when
the calendar dates agree; otherwise FUTURE.  The two-hour check is
evaluated first and takes precedence over the same-day check. -/
theorem classifier_C1 (T N : Int) :
    (T - N ≤ ALERT_BEFORE → get_order_icon T N = Icon.urgent) ∧
    (ALERT_BEFORE < T - N → dateOf T = dateOf N →
      get_order_icon T N = Icon.today) ∧
    (ALERT_BEFORE < T - N → dateOf T ≠ dateOf N →
      get_order_icon T N = Icon.future) := by
  unfold get_order_icon ALERT_BEFORE
  refine ⟨fun h => ?_, fun h hd => ?_, fun h hd => ?_⟩
  · rw [if_pos h]
  · rw [if_neg (by omega), if_pos hd]
  · rw [if_neg (by omega), if_neg hd]

theorem classifier_C1_w :
    get_order_icon 100 50 = Icon.urgent ∧
    get_order_icon 300 0 = Icon.today ∧
    get_order_icon 3000 0 = Icon.future :=
  ⟨(classifier_C1 100 50).1 (by decide),
   (classifier_C1 300 0).2.1 (by decide) (by decide),
   (classifier_C1 3000 0).2.2 (by decide) (by decide)⟩

/-- C2: every well-formed resolved order in the pending set belongs to
exactly one of the four buckets determined by its requested date:
`today_df`, `tomorrow_df`, `week_df`, or the residual beyond-7-days
bucket. -/
theorem partition_C2 (o : ResolvedOrder) (now : Int) (hw : wellFormed o)
    (hp : pendingMem o now) :
    (todayMem o now ∨ tomorrowMem o now ∨ weekMem o now ∨ beyondMem o now) ∧
    ¬(todayMem o now ∧ tomorrowMem o now) ∧
    ¬(todayMem o now ∧ weekMem o now) ∧
    ¬(todayMem o now ∧ beyondMem o now) ∧
    ¬(tomorrowMem o now ∧ weekMem o now) ∧
    ¬(tomorrowMem o now ∧ beyondMem o now) ∧
    ¬(weekMem o now ∧ beyondMem o now) := by
  unfold wellFormed at hw
  unfold pendingMem at hp
  unfold todayMem tomorrowMem weekMem beyondMem pendingMem dateOf
  omega

theorem partition_C2_w :
    (todayMem ⟨1, 1500⟩ 100 ∨ tomorrowMem ⟨1, 1500⟩ 100 ∨
        weekMem ⟨1, 1500⟩ 100 ∨ beyondMem ⟨1, 1500⟩ 100) ∧
    ¬(todayMem ⟨1, 1500⟩ 100 ∧ tomorrowMem ⟨1, 1500⟩ 100) ∧
    ¬(todayMem ⟨1, 1500⟩ 100 ∧ weekMem ⟨1, 1500⟩ 100) ∧
    ¬(todayMem ⟨1, 1500⟩ 100 ∧ beyondMem ⟨1, 1500⟩ 100) ∧
    ¬(tomorrowMem ⟨1, 1500⟩ 100 ∧ weekMem ⟨1, 1500⟩ 100) ∧
    ¬(tomorrowMem ⟨1, 1500⟩ 100 ∧ beyondMem ⟨1, 1500⟩ 100) ∧
    ¬(weekMem ⟨1, 1500⟩ 100 ∧ beyondMem ⟨1, 1500⟩ 100) :=
  partition_C2 ⟨1, 1500⟩ 100 (by decide) (by decide)

/-- C3: resolution parses the clock string strictly as `%H:%M`; a failed
parse (such as the afternoon rule's `"25:00"`) falls back to the 23:59
sentinel instead of an error, and the result is always the given date
combined with a same-day time-of-day. -/
theorem resolver_C3 (d : Int) (s : String) :
    dateOf (resolve d s) = d ∧
    (parseHHMM s = none → resolve d s = d * 1440 + 1439) ∧
    parseHHMM "25:00" = none ∧
    resolve d "25:00" = d * 1440 + 1439 := by
  have h2500 : parseHHMM "25:00" = none := by decide
  have hres : ∀ u : String, parseHHMM u = none → resolve d u = d * 1440 + 1439 := by
    intro u hu
    unfold resolve
    rw [hu]
    simp only [Option.getD_none]
    unfold sentinelMinutes
    norm_num
  refine ⟨?_, hres s, h2500, hres _ h2500⟩
  unfold resolve dateOf
  cases hp : parseHHMM s with
  | none =>
    simp only [Option.getD_none]
    unfold sentinelMinutes
    omega
  | some t =>
    have ht := parseHHMM_le s t hp
    simp only [Option.getD_some]
    omega

theorem resolver_C3_w :
    dateOf (resolve 3 "25:00") = 3 ∧ resolve 3 "25:00" = 3 * 1440 + 1439 :=
  ⟨(resolver_C3 3 "25:00").1, (resolver_C3 3 "25:00").2.1 (by decide)⟩

theorem extract_time_some (s : String) :
    extract_time (some s) =
      match searchTime s.data with
      | some (h, m1, m2) => pad2 (digitsVal h) ++ ":" ++ String.mk [m1, m2]
      | none =>
        match searchAfternoon s.data with
        | some ds => pad2 (digitsVal ds + 12) ++ ":00"
        | none => "23:59" := rfl

/-- C4: whenever the `\d{1,2}[:.]\d{2}` pattern occurs in the input,
`extract_time` returns the matched hour zero-padded to two digits, a colon,
and the matched minute digits verbatim — with no validation of ranges
(`"delivery at 14:30" → "14:30"`, `"9.05 pickup" → "09:05"`,
`"14:99" → "14:99"`). -/
theorem extractor_C4 :
    (∀ (s : String) (h : List Char) (a b : Char),
        searchTime s.data = some (h, a, b) →
        extract_time (some s) = pad2 (digitsVal h) ++ ":" ++ String.mk [a, b]) ∧
    extract_time (some "delivery at 14:30") = "14:30" ∧
    extract_time (some "9.05 pickup") = "09:05" ∧
    extract_time (some "14:99") = "14:99" := by
  refine ⟨?_, by decide, by decide, by decide⟩
  intro s h a b H
  rw [extract_time_some, H]

theorem extractor_C4_w :
    extract_time (some "7.15") = pad2 (digitsVal ['7']) ++ ":" ++ String.mk ['1', '5'] :=
  extractor_C4.1 "7.15" ['7'] '1' '5' (by decide)

/-- C5: when no digit-separator time pattern occurs but the localized
afternoon phrase `บ่าย N` does, `extract_time` returns `(N+12):00`
zero-padded, with no bounds check on `N` (`"บ่าย 3" → "15:00"`,
`N = 13 → "25:00"`). -/
theorem extractor_C5 :
    (∀ (s : String) (ds : List Char),
        searchTime s.data = none → searchAfternoon s.data = some ds →
        extract_time (some s) = pad2 (digitsVal ds + 12) ++ ":00") ∧
    extract_time (some "บ่าย 3") = "15:00" ∧
    extract_time (some "บ่าย 13") = "25:00" := by
  refine ⟨?_, by decide, by decide⟩
  intro s ds H1 H2
  rw [extract_time_some, H1, H2]

theorem extractor_C5_w :
    extract_time (some "บ่าย 7") = pad2 (digitsVal ['7'] + 12) ++ ":00" :=
  extractor_C5.1 "บ่าย 7" ['7'] (by decide) (by decide)

/-- C6: when both the digit-separator pattern and the afternoon phrase
occur in the input, the digit-separator rule wins — the first matching rule
in priority order applies. -/
theorem extractor_C6 :
    (∀ (s : String) (h : List Char) (a b : Char) (ds : List Char),
        searchAfternoon s.data = some ds →
        searchTime s.data = some (h, a, b) →
        extract_time (some s) = pad2 (digitsVal h) ++ ":" ++ String.mk [a, b]) ∧
    extract_time (some "บ่าย 3 at 14:30") = "14:30" := by
  refine ⟨?_, by decide⟩
  intro s h a b ds _ H
  rw [extract_time_some, H]

theorem extractor_C6_w :
    extract_time (some "บ่าย 3 at 14:30") =
      pad2 (digitsVal ['1', '4']) ++ ":" ++ String.mk ['3', '0'] :=
  extractor_C6.1 "บ่าย 3 at 14:30" ['1', '4'] '3' '0' ['3'] (by decide) (by decide)

/-- C7: an absent input, an empty input, and any input matching neither
pattern all yield the `"23:59"` sentinel (a default, not an error). -/
theorem extractor_C7 :
    extract_time none = "23:59" ∧
    extract_time (some "") = "23:59" ∧
    extract_time (some "no time info here") = "23:59" ∧
    (∀ s : String, searchTime s.data = none → searchAfternoon s.data = none →
        extract_time (some s) = "23:59") := by
  refine ⟨by decide, by decide, by decide, ?_⟩
  intro s H1 H2
  rw [extract_time_some, H1, H2]

theorem extractor_C7_w : extract_time (some "abc") = "23:59" :=
  extractor_C7.2.2.2 "abc" (by decide) (by decide)

/-- C8 counterexample: an order overdue by one minute is within the
two-hour margin (`now - deliveryTimestamp = 1 ≤ 120`), but `near_df` is a
filter of `pending`, which requires `deliveryTimestamp ≥ now`, so the order
is not in the alertable set — refuting the claim that overdue orders within
the margin belong to `nearOrders`. -/
theorem near_C8_cex :
    wellFormed ⟨-1, -1⟩ ∧
    (ResolvedOrder.mk (-1) (-1)).delivery_datetime < (0 : Int) ∧
    (0 : Int) - (ResolvedOrder.mk (-1) (-1)).delivery_datetime ≤ ALERT_BEFORE ∧
    ¬ nearMem ⟨-1, -1⟩ 0 := by decide

/-- C8 (amended): every resolved order in the pending set
(`deliveryTimestamp ≥ now`) whose delivery timestamp is within the two-hour
lead time of `now` is a member of `near_df`; orders with
`deliveryTimestamp < now` are excluded from `pending` and therefore never
in `near_df`, even within the two-hour margin. -/
theorem near_C8_amended (o : ResolvedOrder) (now : Int) :
    (pendingMem o now → o.delivery_datetime - now ≤ ALERT_BEFORE →
      nearMem o now) ∧
    (o.delivery_datetime < now → ¬ nearMem o now) := by
  constructor
  · intro h1 h2
    exact ⟨h1, h2⟩
  · intro h1 hn
    unfold nearMem pendingMem at hn
    omega

theorem near_C8_amended_w :
    nearMem ⟨0, 100⟩ 50 ∧ ¬ nearMem ⟨0, 40⟩ 50 :=
  ⟨(near_C8_amended ⟨0, 100⟩ 50).1 (by decide) (by decide),
   (near_C8_amended ⟨0, 40⟩ 50).2 (by decide)⟩

/-- C9 counterexample: the afternoon rule with `N = 99` produces
`"111:00"`, whose hour field has three digits, refuting the claim that
`extract_time` always returns exactly two digits, a colon, and two
digits. -/
theorem extractor_C9_cex :
    extract_time (some "บ่าย 99") = "111:00" ∧
    specHHMMFormat (extract_time (some "บ่าย 99")) = false := by decide

/-- C9 (amended): `extract_time` is total and, for every input including
the absent one, returns a string made of a two- or three-digit hour field
(three digits only when the afternoon rule's `N + 12` reaches 100), a
colon, and exactly two digits. -/
theorem extractor_C9_amended (o : Option String) :
    looseHMFormat (extract_time o) = true := by
  cases o with
  | none => decide
  | some s =>
    rw [extract_time_some]
    cases hst : searchTime s.data with
    | some r =>
      obtain ⟨h, a, b⟩ := r
      obtain ⟨hs, ha, hb⟩ := searchTime_shape _ _ _ _ hst
      have hv : digitsVal h ≤ 99 := digitsVal_le_of_hourShape _ hs
      obtain ⟨p, q, hpq, hp, hq⟩ :=
        twoDigitString_spec (pad2 (digitsVal h)) (pad2_two (digitsVal h) (by omega))
      have hdata :
          (pad2 (digitsVal h) ++ ":" ++ String.mk [a, b]).data = [p, q, ':', a, b] := by
        rw [data_append, data_append, hpq, mk_data]
        exact rfl
      exact looseHM_of_data5 _ p q a b hdata hp hq ha hb
    | none =>
      cases haf : searchAfternoon s.data with
      | some ds =>
        have hs := searchAfternoon_shape _ _ haf
        have hv : digitsVal ds ≤ 99 := digitsVal_le_of_hourShape _ hs
        by_cases hc : digitsVal ds + 12 < 100
        · obtain ⟨p, q, hpq, hp, hq⟩ :=
            twoDigitString_spec (pad2 (digitsVal ds + 12))
              (pad2_two (digitsVal ds + 12) hc)
          have hdata :
              (pad2 (digitsVal ds + 12) ++ ":00").data = [p, q, ':', '0', '0'] := by
            rw [data_append, hpq]
            exact rfl
          exact looseHM_of_data5 _ p q '0' '0' hdata hp hq (by decide) (by decide)
        · obtain ⟨p, q, r, hpqr, hp, hq, hr⟩ :=
            threeDigitString_spec (pad2 (digitsVal ds + 12))
              (pad2_three (digitsVal ds + 12) (by omega) (by omega))
          have hdata :
              (pad2 (digitsVal ds + 12) ++ ":00").data = [p, q, r, ':', '0', '0'] := by
            rw [data_append, hpqr]
            exact rfl
          exact looseHM_of_data6 _ p q r '0' '0' hdata hp hq hr (by decide) (by decide)
      | none => decide

/-- C10: every order in the alertable `near_df` set receives the URGENT
icon from `get_order_icon` at the same `now`: the alert set and the urgent
display marking are consistent. -/
theorem near_urgent_C10 (o : ResolvedOrder) (now : Int) (hn : nearMem o now) :
    get_order_icon o.delivery_datetime now = Icon.urgent := by
  unfold nearMem at hn
  unfold get_order_icon
  rw [if_pos hn.2]

theorem near_urgent_C10_w :
    get_order_icon (ResolvedOrder.mk 0 100).delivery_datetime 50 = Icon.urgent :=
  near_urgent_C10 ⟨0, 100⟩ 50 (by decide)
